import Mathlib

set_option maxRecDepth 16384

/-!
Verification of the prerender server (`src/server.js`) against its
natural-language specification.

The JavaScript source is shallowly embedded: pure helpers become Lean
functions on `String` / `List Char`; the asynchronous render pipeline
becomes a function over an explicit oracle of step outcomes (each
`await`ed browser operation either succeeds or rejects with a message);
the `lru-cache` dependency (not part of the repository source) is
modelled from the spec; platform built-ins (`net.isIP`, WHATWG `URL`,
`decodeURIComponent`, ECMAScript `RegExp`) are modelled faithfully on
the fragment the server exercises, as documented at each definition.
-/

namespace Prerender

/-! ## Generic string/list helpers -/

instance instDecEqExcept {ε α : Type} [DecidableEq ε] [DecidableEq α] :
    DecidableEq (Except ε α) := fun x y =>
  match x, y with
  | .ok a, .ok b =>
    if h : a = b then .isTrue (by rw [h]) else .isFalse (fun hh => by cases hh; exact h rfl)
  | .error a, .error b =>
    if h : a = b then .isTrue (by rw [h]) else .isFalse (fun hh => by cases hh; exact h rfl)
  | .ok _, .error _ => .isFalse (fun hh => by cases hh)
  | .error _, .ok _ => .isFalse (fun hh => by cases hh)

/-- Bool-valued prefix test on char lists; models JS `String.prototype.startsWith`
(JS strings compared code unit by code unit; all strings involved here are ASCII). -/
def strStarts (s p : String) : Bool :=
  p.data.isPrefixOf s.data

/-- ASCII lowercasing via `Char.toLower`, structurally (models JS
`String.prototype.toLowerCase` on the ASCII strings involved here). -/
def jsToLower (s : String) : String :=
  String.mk (s.data.map Char.toLower)

/-- Split a char list at every occurrence of `sep` (the separators are dropped).
Always returns a non-empty list of (possibly empty) parts. -/
def splitOnChar (sep : Char) : List Char → List (List Char)
  | [] => [[]]
  | c :: rest =>
    if c = sep then [] :: splitOnChar sep rest
    else
      match splitOnChar sep rest with
      | [] => [[c]]
      | h :: t => (c :: h) :: t

/-- Replace the first occurrence of the substring `pat` in `s` by `rep`;
models JS `String.prototype.replace` with a string (non-regex) first argument. -/
def replaceFirst (s pat rep : List Char) : List Char :=
  match s with
  | [] => []
  | c :: rest =>
    if pat.isPrefixOf (c :: rest) then rep ++ (c :: rest).drop pat.length
    else c :: replaceFirst rest pat rep

/-! ## Render cache

Modelled from the spec: the `lru-cache` dependency used at `src/server.js`
lines 40–43 is external library code (not under `src/`).  Per the spec it is a
TTL + capacity-bounded LRU store: `get` of an entry older than the TTL is a
miss (and drops the stale entry), a hit refreshes LRU recency but not the
insertion time; `set` inserts most-recent and evicts the least-recently-used
entry beyond capacity (`max = 0` means unbounded, `ttl = 0` means no expiry,
as in `lru-cache`). -/

structure CacheEntry where
  key : String
  value : String
  insertedAt : Nat
deriving DecidableEq

/-- TTL + LRU cache state; `entries` is ordered most-recently-used first. -/
structure Cache where
  maxItems : Nat
  ttl : Nat
  entries : List CacheEntry
deriving DecidableEq

/-- Is the entry expired at time `now`? (`ttl = 0` disables expiry, as in `lru-cache`.) -/
def entryStale (c : Cache) (e : CacheEntry) (now : Nat) : Bool :=
  c.ttl ≠ 0 && e.insertedAt + c.ttl ≤ now

/-- `cache.get(key)`: miss on absent or stale key (stale entries are dropped);
a hit moves the entry to most-recently-used position. -/
def cacheGet (c : Cache) (now : Nat) (k : String) : Option String × Cache :=
  match c.entries.find? (fun e => e.key = k) with
  | none => (none, c)
  | some e =>
    if entryStale c e now then
      (none, { c with entries := c.entries.filter (fun e' => e'.key ≠ k) })
    else
      (some e.value, { c with entries := e :: c.entries.filter (fun e' => e'.key ≠ k) })

/-- `cache.set(key, value)`: insert as most-recently-used, evicting beyond capacity. -/
def cacheSet (c : Cache) (now : Nat) (k v : String) : Cache :=
  let es := ⟨k, v, now⟩ :: c.entries.filter (fun e' => e'.key ≠ k)
  { c with entries := if c.maxItems = 0 then es else es.take c.maxItems }

/-! ## The render pipeline (`renderUrl`, `src/server.js` lines 133–204)

Each `await`ed browser-engine operation is an oracle outcome: `Except.ok`
for a resolved promise, `Except.error m` for a rejection with message `m`.
The embedding mirrors the source's control flow exactly: the cache probe and
its truthiness test (line 134–135), browser launch and page creation
(137–138), `setUserAgent` (140) and `setRequestInterception` (142) *before*
the `try` block, the `try` block (152–198) containing navigation, the
`.catch(() => {})`-swallowed selector and readiness waits (157, 167–174),
the un-swallowed scroll nudge and evaluate steps, content capture and cache
store, and the `finally` block (199–201) whose `page.close()` failure is
itself swallowed. -/

structure PageOps where
  launch : Except String Unit
  newPage : Except String Unit
  setUserAgent : Except String Unit
  setRequestInterception : Except String Unit
  goto : Except String Unit
  waitForSelector : Except String Unit
  nudge : Except String Unit
  waitForFunction : Except String Unit
  injectBase : Except String Unit
  stripScripts : Except String Unit
  content : Except String String
  close : Except String Unit
deriving DecidableEq

structure RenderResult where
  result : Except String String
  pageCreated : Bool
  navigated : Bool
  pageClosed : Bool
  cacheAfter : Cache
deriving DecidableEq

/-- The body of the `try` block (lines 152–198): returns the outcome and the
cache state after a possible `cache.set`.  `waitForSelector` and
`waitForFunction` rejections are swallowed by `.catch(() => {})`; every other
rejection aborts the block. -/
def renderTryBlock (ops : PageOps) (c : Cache) (now : Nat) (targetUrl : String) :
    Except String String × Cache :=
  match ops.goto with
  | .error e => (.error e, c)
  | .ok () =>
    -- waitForSelector: non-fatal, outcome discarded
    match ops.nudge with
    | .error e => (.error e, c)
    | .ok () =>
      -- waitForFunction: non-fatal, outcome discarded
      match ops.injectBase with
      | .error e => (.error e, c)
      | .ok () =>
        match ops.stripScripts with
        | .error e => (.error e, c)
        | .ok () =>
          match ops.content with
          | .error e => (.error e, c)
          | .ok html => (.ok html, cacheSet c now targetUrl html)

/-- `renderUrl(targetUrl)` (lines 133–204).  The cached value is returned only
when truthy (non-empty string, line 135).  `setUserAgent` and
`setRequestInterception` run after page creation but before the `try`, so
their rejections propagate without the `finally` cleanup running. -/
def renderUrl (ops : PageOps) (c : Cache) (now : Nat) (targetUrl : String) :
    RenderResult :=
  let (fromCache, c1) := cacheGet c now targetUrl
  let proceed : RenderResult :=
    match ops.launch with
    | .error e => ⟨.error e, false, false, false, c1⟩
    | .ok () =>
      match ops.newPage with
      | .error e => ⟨.error e, false, false, false, c1⟩
      | .ok () =>
        match ops.setUserAgent with
        | .error e => ⟨.error e, true, false, false, c1⟩
        | .ok () =>
          match ops.setRequestInterception with
          | .error e => ⟨.error e, true, false, false, c1⟩
          | .ok () =>
            -- try … finally: the close always runs here, its failure swallowed
            let (res, c2) := renderTryBlock ops c1 now targetUrl
            ⟨res, true, true, true, c2⟩
  match fromCache with
  | some h => if h ≠ "" then ⟨.ok h, false, false, false, c1⟩ else proceed
  | none => proceed

/-! ## Host policy guard: the public-IP (SSRF) check
(`validateResolvablePublic`, `src/server.js` lines 68–89)

DNS resolution (`dns.lookup(host, { all: true })`) is an external effect and
enters as an oracle: `Except.error` for a failed lookup, `Except.ok addrs`
for the resolved address strings.  The resolver always yields canonical
textual IP literals (dotted-quad IPv4; RFC 5952 compressed lowercase IPv6),
which is captured by quantifying over structured addresses `IpAddr` and
rendering them. -/

def isDigitChar (c : Char) : Bool := '0' ≤ c && c ≤ '9'

def isHexDigitChar (c : Char) : Bool :=
  isDigitChar c || ('a' ≤ c && c ≤ 'f') || ('A' ≤ c && c ≤ 'F')

def digitChar (n : Nat) : Char := Char.ofNat (48 + n)

/-- Lowercase hex digit, as produced by `inet_ntop` for IPv6 groups. -/
def hexChar (n : Nat) : Char :=
  if n < 10 then Char.ofNat (48 + n) else Char.ofNat (87 + n)

/-- Decimal rendering of an IPv4 octet (0–255), no leading zeros. -/
def decOctet (n : Nat) : List Char :=
  if n < 10 then [digitChar n]
  else if n < 100 then [digitChar (n / 10), digitChar (n % 10)]
  else [digitChar (n / 100), digitChar (n / 10 % 10), digitChar (n % 10)]

/-- Lowercase hex rendering of a 16-bit IPv6 group, no leading zeros. -/
def hexGroup (n : Nat) : List Char :=
  if n < 16 then [hexChar n]
  else if n < 256 then [hexChar (n / 16), hexChar (n % 16)]
  else if n < 4096 then [hexChar (n / 256), hexChar (n / 16 % 16), hexChar (n % 16)]
  else [hexChar (n / 4096), hexChar (n / 256 % 16), hexChar (n / 16 % 16), hexChar (n % 16)]

/-- Canonical dotted-quad rendering of an IPv4 address. -/
def render4 (a b c d : Nat) : List Char :=
  decOctet a ++ '.' :: (decOctet b ++ '.' :: (decOctet c ++ '.' :: decOctet d))

/-- Length of the run of zero groups at the head of the list. -/
def zeroRunAt : List Nat → Nat
  | 0 :: rest => zeroRunAt rest + 1
  | _ => 0

/-- All (start index, zero-run length) candidates of a group list. -/
def runCandidates (gs : List Nat) : List (Nat × Nat) :=
  (List.range gs.length).map (fun i => (i, zeroRunAt (gs.drop i)))

/-- `inet_ntop` best-run selection: a candidate wins if its run has length ≥ 2
and is strictly longer than the current best (so ties keep the leftmost). -/
def betterRun (acc : Option (Nat × Nat)) (cand : Nat × Nat) : Bool :=
  decide (2 ≤ cand.2) &&
    (match acc with
     | none => true
     | some b => decide (b.2 < cand.2))

def pickBest (acc : Option (Nat × Nat)) (cand : Nat × Nat) : Option (Nat × Nat) :=
  if betterRun acc cand then some cand else acc

/-- The zero-group run compressed to `::`, if any (longest, leftmost, ≥ 2). -/
def bestRun (gs : List Nat) : Option (Nat × Nat) :=
  (runCandidates gs).foldl pickBest none

def intercalateColon : List (List Char) → List Char
  | [] => []
  | [x] => x
  | x :: xs => x ++ ':' :: intercalateColon xs

/-- Canonical textual rendering of an IPv6 address from its eight 16-bit
groups, as produced by the resolver (`inet_ntop`): lowercase hex groups
without leading zeros, joined by `:`, with the best zero run compressed to
`::`.  (The IPv4-mapped dotted-tail special form `::ffff:a.b.c.d` is not
modelled; such addresses match none of the server's textual probes in either
rendering, so no check depends on it.) -/
def render6 (gs : List Nat) : List Char :=
  match bestRun gs with
  | none => intercalateColon (gs.map hexGroup)
  | some (s, l) =>
    intercalateColon ((gs.take s).map hexGroup) ++ ':' :: ':' ::
      intercalateColon ((gs.drop (s + l)).map hexGroup)

/-- A resolved address, structurally: the resolver hands the server the
canonical textual rendering `renderIp` of such a value. -/
inductive IpAddr where
  | v4 (a b c d : Fin 256)
  | v6 (g0 g1 g2 g3 g4 g5 g6 g7 : Fin 65536)
deriving DecidableEq

def renderIp : IpAddr → String
  | .v4 a b c d => String.mk (render4 a.val b.val c.val d.val)
  | .v6 g0 g1 g2 g3 g4 g5 g6 g7 =>
    String.mk (render6 [g0.val, g1.val, g2.val, g3.val, g4.val, g5.val, g6.val, g7.val])

/-- Numeric value of a digit string (used only on validated octet strings). -/
def decValue (t : List Char) : Nat :=
  t.foldl (fun acc c => acc * 10 + (c.toNat - 48)) 0

/-- A valid IPv4 octet component: 1–3 decimal digits, ≤ 255, no leading zero
(Node's strict dotted-quad rule). -/
def validOctet (t : List Char) : Bool :=
  !t.isEmpty && decide (t.length ≤ 3) && t.all isDigitChar &&
    (t.head? != some '0' || t == ['0']) && decide (decValue t ≤ 255)

def isIPv4Str (cs : List Char) : Bool :=
  match splitOnChar '.' cs with
  | [a, b, c, d] => validOctet a && validOctet b && validOctet c && validOctet d
  | _ => false

/-- Coarse IPv6 shape test: contains `:` and only hex digits / colons.
Exact (`= net.isIPv6`) on the canonical resolver output the server feeds it;
over-approximates on malformed colon strings (e.g. `":::"`), which never
reach the check. -/
def isIPv6Str (cs : List Char) : Bool :=
  cs.contains ':' && cs.all (fun c => isHexDigitChar c || c = ':')

/-- Model of Node's `net.isIP(ip)` truthiness (the server only tests
`!net.isIP(ip)`, so the 4/6 distinction is irrelevant). -/
def netIsIP (s : String) : Bool :=
  isIPv4Str s.data || isIPv6Str s.data

/-- The sixteen prefixes denoted by the source regex
`/^172\.(1[6-9]|2\d|3[0-1])\./` — its alternation matches exactly the
two-digit strings "16"–"31", each anchored between `172.` and `.`. -/
def prefixes172 : List String :=
  ["172.16.", "172.17.", "172.18.", "172.19.", "172.20.", "172.21.", "172.22.",
   "172.23.", "172.24.", "172.25.", "172.26.", "172.27.", "172.28.", "172.29.",
   "172.30.", "172.31."]

def is172Range (ip : String) : Bool :=
  prefixes172.any (fun p => strStarts ip p)

/-- The private-address test of `validateResolvablePublic`
(`src/server.js` lines 78–85), verbatim: textual prefix / equality probes. -/
def isPrivateIp (ip : String) : Bool :=
  strStarts ip "10." ||
  strStarts ip "192.168." ||
  is172Range ip ||
  ip.data == "127.0.0.1".data ||
  ip.data == "::1".data ||
  strStarts ip "169.254." ||
  strStarts ip "fe80:"

/-- The `for (const a of addrs)` loop: skip non-IP strings, throw on the
first private address. -/
def checkAddrs : List String → Except String Unit
  | [] => .ok ()
  | ip :: rest =>
    if netIsIP ip = false then checkAddrs rest
    else if isPrivateIp ip then .error "private ip blocked"
    else checkAddrs rest

/-- `validateResolvablePublic(host)` (lines 68–89), with the DNS lookup for
the host supplied as an oracle.  Disabled guard returns before resolving;
lookup failure propagates. -/
def validateResolvablePublic (denyPrivateIps : Bool)
    (lookup : Except String (List String)) : Except String Unit :=
  if denyPrivateIps = false then .ok ()
  else
    match lookup with
    | .error e => .error e
    | .ok addrs => checkAddrs addrs

/-- The denylist exactly as the spec words it: IPv4 10.0.0.0/8,
172.16.0.0/12, 192.168.0.0/16, the single address 127.0.0.1, 169.254.0.0/16;
IPv6 `::1` or any fe80::/10-prefixed address (top 10 bits = 0b1111111010). -/
def specDenylisted : IpAddr → Bool
  | .v4 a b c d =>
    a.val == 10 ||
    (a.val == 172 && decide (16 ≤ b.val) && decide (b.val ≤ 31)) ||
    (a.val == 192 && b.val == 168) ||
    (a.val == 127 && b.val == 0 && c.val == 0 && d.val == 1) ||
    (a.val == 169 && b.val == 254)
  | .v6 g0 g1 g2 g3 g4 g5 g6 g7 =>
    (g0.val == 0 && g1.val == 0 && g2.val == 0 && g3.val == 0 &&
     g4.val == 0 && g5.val == 0 && g6.val == 0 && g7.val == 1) ||
    g0.val / 64 == 1018

/-- The denylist the code actually enforces, stated structurally: as
`specDenylisted` except that IPv6 link-local detection covers exactly
fe80::/16 (first group = 0xfe80), the addresses whose canonical text begins
with `fe80:`. -/
def amendedDenylisted : IpAddr → Bool
  | .v4 a b c d =>
    a.val == 10 ||
    (a.val == 172 && decide (16 ≤ b.val) && decide (b.val ≤ 31)) ||
    (a.val == 192 && b.val == 168) ||
    (a.val == 127 && b.val == 0 && c.val == 0 && d.val == 1) ||
    (a.val == 169 && b.val == 254)
  | .v6 g0 g1 g2 g3 g4 g5 g6 g7 =>
    (g0.val == 0 && g1.val == 0 && g2.val == 0 && g3.val == 0 &&
     g4.val == 0 && g5.val == 0 && g6.val == 0 && g7.val == 1) ||
    g0.val == 65152

/-! ## Allow-list matching (`wildcardMatch` / `hostAllowed`, lines 55–66)

`wildcardMatch` builds an ECMAScript regular expression.  The regex strings
it can build use only this fragment: `^`/`$` anchors, backslash-escaped
literals, `.`, bare literal characters, and the `*` quantifier.  The model
below implements exactly that fragment with ECMAScript semantics, including
the construction-time SyntaxError when a quantifier has nothing to repeat
(e.g. `^*…`), which is what `new RegExp` throws for patterns whose `*`
survives unescaped at the start.  Unsupported metacharacters (`+ ? ( ) [ ]
\x7b \x7d |`) cannot occur unescaped in compiled patterns; the parser rejects
them rather than guessing semantics. -/

inductive RAtom where
  | lit (c : Char)
  | dot
deriving DecidableEq

inductive RTerm where
  | anchorA                        -- `^`
  | anchorZ                        -- `$`
  | atom (a : RAtom) (star : Bool)
deriving DecidableEq

def unsupportedMeta : List Char :=
  ['+', '?', '(', ')', '[', ']', Char.ofNat 123, Char.ofNat 125, '|']

/-- ECMAScript pattern parser for the fragment above.  `none` models the
SyntaxError thrown by `new RegExp` ("nothing to repeat"): `^`, `$` are
assertions and not quantifiable, and a quantifier may not follow another
quantifier or start a term. -/
def parseRegex : List Char → Option (List RTerm)
  | [] => some []
  | '^' :: '*' :: _ => none
  | '^' :: rest => (parseRegex rest).map (RTerm.anchorA :: ·)
  | '$' :: '*' :: _ => none
  | '$' :: rest => (parseRegex rest).map (RTerm.anchorZ :: ·)
  | '*' :: _ => none
  | '\\' :: [] => none
  | '\\' :: _ :: '*' :: '*' :: _ => none
  | '\\' :: c :: '*' :: rest => (parseRegex rest).map (RTerm.atom (RAtom.lit c) true :: ·)
  | '\\' :: c :: rest => (parseRegex rest).map (RTerm.atom (RAtom.lit c) false :: ·)
  | '.' :: '*' :: '*' :: _ => none
  | '.' :: '*' :: rest => (parseRegex rest).map (RTerm.atom RAtom.dot true :: ·)
  | '.' :: rest => (parseRegex rest).map (RTerm.atom RAtom.dot false :: ·)
  | _ :: '*' :: '*' :: _ => none
  | c :: '*' :: rest =>
    if unsupportedMeta.contains c then none
    else (parseRegex rest).map (RTerm.atom (RAtom.lit c) true :: ·)
  | c :: rest =>
    if unsupportedMeta.contains c then none
    else (parseRegex rest).map (RTerm.atom (RAtom.lit c) false :: ·)

/-- Atom match under the `i` flag (ASCII case folding; hosts and patterns
here are ASCII).  `.` matches any character except a line terminator. -/
def atomMatch (a : RAtom) (c : Char) : Bool :=
  match a with
  | .dot => !(c = '\n' || c = '\r' || c = Char.ofNat 8232 || c = Char.ofNat 8233)
  | .lit l => l.toLower == c.toLower

/-- Does the term list match a prefix of `cs`, where `pos` characters of the
subject precede `cs`?  (`^` asserts `pos = 0`, `$` asserts end of subject;
`*` is an existential: match zero or more atom repetitions.)  Every step
either consumes a term or consumes a subject character, so a fuel strictly
greater than `ts.length + cs.length` makes the out-of-fuel case unreachable;
`rtest` below always supplies such fuel. -/
def rmatch : Nat → List RTerm → Nat → List Char → Bool
  | 0, _, _, _ => false
  | _ + 1, [], _, _ => true
  | fuel + 1, RTerm.anchorA :: ts, pos, cs => pos == 0 && rmatch fuel ts pos cs
  | fuel + 1, RTerm.anchorZ :: ts, _, [] => rmatch fuel ts 0 []
  | _ + 1, RTerm.anchorZ :: _, _, _ :: _ => false
  | _ + 1, RTerm.atom _ false :: _, _, [] => false
  | fuel + 1, RTerm.atom a false :: ts, pos, c :: cs =>
    atomMatch a c && rmatch fuel ts (pos + 1) cs
  | fuel + 1, RTerm.atom a true :: ts, pos, cs =>
    rmatch fuel ts pos cs ||
      (match cs with
       | [] => false
       | c :: cs2 => atomMatch a c && rmatch fuel (RTerm.atom a true :: ts) (pos + 1) cs2)

/-- `RegExp.prototype.test`: the pattern matches at some start position. -/
def rtest (ts : List RTerm) (input : List Char) : Bool :=
  (List.range (input.length + 1)).any
    (fun i => rmatch (ts.length + input.length + 1) ts i (input.drop i))

/-- The metacharacter class of the escape step at line 58:
`/[.+?^$\x7b\x7d()|[\]\\]/g` — note it does **not** contain `*`. -/
def escClass : List Char :=
  ['.', '+', '?', '^', '$', Char.ofNat 123, Char.ofNat 125, '(', ')', '|', '[', ']', '\\']

/-- `pattern.replace(/[.+?^$\x7b\x7d()|[\]\\]/g, "\\$&")`. -/
def jsEscapeMeta : List Char → List Char
  | [] => []
  | c :: rest => (if escClass.contains c then ['\\', c] else [c]) ++ jsEscapeMeta rest

/-- The source of the RegExp that `wildcardMatch` constructs:
`^` + escaped pattern with the first `"\\*"` substring replaced by `".*"` + `$`. -/
def compileWildcard (pattern : String) : List Char :=
  '^' :: (replaceFirst (jsEscapeMeta pattern.data) ['\\', '*'] ['.', '*']) ++ ['$']

/-- Shape of V8's construction-time SyntaxError message. -/
def regexSyntaxErrorMsg (src : List Char) : String :=
  "Invalid regular expression: /" ++ String.mk src ++ "/i: Nothing to repeat"

/-- `wildcardMatch(host, pattern)` (lines 55–61): exact case-insensitive
comparison for patterns without `*`; otherwise compile to a RegExp (flag `i`)
and test — where construction may throw. -/
def wildcardMatch (host pattern : String) : Except String Bool :=
  if pattern.data.contains '*' = false then
    .ok (jsToLower host == jsToLower pattern)
  else
    let src := compileWildcard pattern
    match parseRegex src with
    | none => .error (regexSyntaxErrorMsg src)
    | some ts => .ok (rtest ts host.data)

/-- `ALLOW_HOSTS.some(p => wildcardMatch(host, p))`: left to right,
short-circuiting on the first match; a thrown error propagates. -/
def anyWildcard (host : String) : List String → Except String Bool
  | [] => .ok false
  | p :: rest =>
    match wildcardMatch host p with
    | .error e => .error e
    | .ok true => .ok true
    | .ok false => anyWildcard host rest

/-- `hostAllowed(host)` (lines 63–66). -/
def hostAllowed (allowHosts : List String) (host : String) : Except String Bool :=
  if allowHosts.isEmpty then .ok true else anyWildcard host allowHosts

/-- Split a pattern at its first `*`, if any. -/
def splitFirstStar : List Char → Option (List Char × List Char)
  | [] => none
  | '*' :: rest => some ([], rest)
  | c :: rest => (splitFirstStar rest).map (fun pr => (c :: pr.1, pr.2))

/-- Modelled from the spec: "a wildcard pattern matches exactly the hosts
obtained by letting the first `*` stand for any character sequence"
(case-insensitively, like the rest of the matcher). -/
def specWildcardMatch (host pattern : String) : Bool :=
  match splitFirstStar pattern.data with
  | none => jsToLower host == jsToLower pattern
  | some (pre, post) =>
    let h := (jsToLower host).data
    let preL := (jsToLower (String.mk pre)).data
    let postL := (jsToLower (String.mk post)).data
    preL.isPrefixOf h && postL.isSuffixOf (h.drop preL.length)

/-! ## URL parsing (`new URL`, `isAbsoluteHttpUrl`, lines 46–53)

Model of the WHATWG URL parser restricted to what the server reads from it:
parse success, `protocol`, and `host`.  Covered: scheme grammar
(alpha, then alphanumeric/`+`/`-`/`.`, then `:`); for the special schemes
http/https, any run of slashes before the authority, userinfo stripping at
the last `@`, `host:port` splitting with default-port elision and
digits-only port validation, host lowercasing, and rejection of an empty
host.  Not modelled (unused by any claim): bracketed IPv6 hosts,
percent-encoded authorities, IDNA.  Non-http(s) schemes parse successfully
with an opaque path (e.g. `ftp://a.com` — only `protocol` matters then). -/

def isAlphaChar (c : Char) : Bool :=
  ('a' ≤ c && c ≤ 'z') || ('A' ≤ c && c ≤ 'Z')

def isSchemeChar (c : Char) : Bool :=
  isAlphaChar c || isDigitChar c || c = '+' || c = '-' || c = '.'

/-- Split `scheme ":" rest`, or `none` if there is no valid scheme prefix. -/
def splitScheme (cs : List Char) : Option (List Char × List Char) :=
  match cs with
  | [] => none
  | c :: rest =>
    if isAlphaChar c then
      let body := rest.takeWhile isSchemeChar
      match rest.drop body.length with
      | ':' :: tail => some (c :: body, tail)
      | _ => none
    else none

structure UrlParts where
  protocol : String
  host : String
deriving DecidableEq

def defaultPortVal (scheme : String) : Nat :=
  if scheme = "http" then 80 else 443

def parseUrl (s : String) : Option UrlParts :=
  match splitScheme s.data with
  | none => none
  | some (schemeCs, rest) =>
    let scheme := jsToLower (String.mk schemeCs)
    if scheme = "http" ∨ scheme = "https" then
      let rest2 := rest.dropWhile (fun c => c = '/' || c = '\\')
      let authority := rest2.takeWhile (fun c => c ≠ '/' && c ≠ '\\' && c ≠ '?' && c ≠ '#')
      let hostPort := (splitOnChar '@' authority).getLastD []
      match splitOnChar ':' hostPort with
      | [h] =>
        if h.isEmpty then none else some ⟨scheme ++ ":", jsToLower (String.mk h)⟩
      | [h, p] =>
        if h.isEmpty then none
        else if p.all isDigitChar = false then none
        else
          let host := jsToLower (String.mk h)
          if p.isEmpty ∨ decValue p = defaultPortVal scheme then some ⟨scheme ++ ":", host⟩
          else some ⟨scheme ++ ":", host ++ ":" ++ String.mk p⟩
      | _ => none
    else some ⟨scheme ++ ":", ""⟩

/-- `isAbsoluteHttpUrl(u)` (lines 46–53). -/
def isAbsoluteHttpUrl (u : String) : Bool :=
  match parseUrl u with
  | some parts => parts.protocol == "http:" || parts.protocol == "https:"
  | none => false

/-! ## Target extraction (`extractTargetUrl`, lines 92–113)

`decodeURIComponent` is modelled per its ECMAScript definition: `%HH`
escapes decode to bytes, consecutive escaped bytes must form valid UTF-8
(strict: no overlong forms, no surrogates, ≤ U+10FFFF), unescaped characters
pass through; any violation throws `URIError` (`none` here). -/

inductive PctTok where
  | ch (c : Char)
  | byte (b : Nat)
deriving DecidableEq

/-- First pass: `%HH` → byte token, other characters pass through. -/
def pctTokenize : List Char → Option (List PctTok)
  | [] => some []
  | '%' :: h1 :: h2 :: rest =>
    match isHexDigitChar h1, isHexDigitChar h2 with
    | true, true =>
      let v1 := if h1.isDigit then h1.toNat - 48 else (h1.toLower.toNat - 87)
      let v2 := if h2.isDigit then h2.toNat - 48 else (h2.toLower.toNat - 87)
      (pctTokenize rest).map (PctTok.byte (16 * v1 + v2) :: ·)
    | _, _ => none
  | '%' :: _ => none
  | c :: rest => (pctTokenize rest).map (PctTok.ch c :: ·)

def isContByte (b : Nat) : Bool := 128 ≤ b && b ≤ 191

/-- Second pass: UTF-8 decoding of escaped byte runs. -/
def pctAssemble : List PctTok → Option (List Char)
  | [] => some []
  | .ch c :: rest => (pctAssemble rest).map (c :: ·)
  | .byte b :: rest =>
    if b < 128 then (pctAssemble rest).map (Char.ofNat b :: ·)
    else if 194 ≤ b ∧ b ≤ 223 then
      match rest with
      | .byte x :: rest2 =>
        if isContByte x then (pctAssemble rest2).map (Char.ofNat ((b % 32) * 64 + x % 64) :: ·)
        else none
      | _ => none
    else if 224 ≤ b ∧ b ≤ 239 then
      match rest with
      | .byte x :: .byte y :: rest2 =>
        if isContByte x && isContByte y then
          let cp := (b % 16) * 4096 + (x % 64) * 64 + y % 64
          if 2048 ≤ cp ∧ ¬(55296 ≤ cp ∧ cp ≤ 57343) then
            (pctAssemble rest2).map (Char.ofNat cp :: ·)
          else none
        else none
      | _ => none
    else if 240 ≤ b ∧ b ≤ 244 then
      match rest with
      | .byte x :: .byte y :: .byte z :: rest2 =>
        if isContByte x && isContByte y && isContByte z then
          let cp := (b % 8) * 262144 + (x % 64) * 4096 + (y % 64) * 64 + z % 64
          if 65536 ≤ cp ∧ cp ≤ 1114111 then
            (pctAssemble rest2).map (Char.ofNat cp :: ·)
          else none
        else none
      | _ => none
    else none

/-- `decodeURIComponent`; `none` = thrown `URIError`. -/
def pctDecode (cs : List Char) : Option (List Char) :=
  (pctTokenize cs).bind pctAssemble

def isLineTerm (c : Char) : Bool :=
  c = '\n' || c = '\r' || c = Char.ofNat 8232 || c = Char.ofNat 8233

/-- `path.match(/^\/render\/(.+)$/i)`: a case-insensitive literal
`/render/`, then one or more non-line-terminator characters reaching the end
of the string (`.` excludes line terminators; no `m`/`s` flags). -/
def renderPathRemainder (path : String) : Option (List Char) :=
  match path.data with
  | a :: b :: c :: d :: e :: f :: g :: h :: rest =>
    if [a, b, c, d, e, f, g, h].map Char.toLower = "/render/".data ∧
        rest ≠ [] ∧ rest.all (fun ch => !isLineTerm ch) then
      some rest
    else none
  | _ => none

/-- The path-style branch of `extractTargetUrl` (lines 101–110): decode the
captured remainder, falling back to the raw remainder if decoding throws. -/
def extractFromPath (path : String) : String :=
  match renderPathRemainder path with
  | none => ""
  | some rest =>
    match pctDecode rest with
    | some d => String.mk d
    | none => String.mk rest

/-- `extractTargetUrl(req)` (lines 92–113); `queryUrl` is `req.query.url`
when it is a string (`none` for absent or non-string values). -/
def extractTargetUrl (queryUrl : Option String) (path : String) : String :=
  match queryUrl with
  | some q => if q ≠ "" then q else extractFromPath path
  | none => extractFromPath path

/-! ## The render endpoint handler (lines 213–243) -/

/-- The `/render` route handler as (status, body): auth check, target
extraction, absolute-http(s) validation (400), then inside `try`: host
allow-list (403, or a thrown wildcard error → 500), public-IP validation
(thrown → 500), render (thrown → 500), success (200 with the HTML).  Every
thrown error is surfaced as `500` with body `"Render error: " + e.message`.
(The `parseUrl … | none` branch is unreachable after `isAbsoluteHttpUrl`
succeeded; it is kept for totality.) -/
def handleRender (secret : String) (header : Option String)
    (queryUrl : Option String) (path : String)
    (allowHosts : List String) (denyPrivateIps : Bool)
    (lookup : Except String (List String))
    (ops : PageOps) (c : Cache) (now : Nat) : Nat × String :=
  if secret = "" ∨ header ≠ some secret then (401, "unauthorized")
  else
    let targetUrl := extractTargetUrl queryUrl path
    if isAbsoluteHttpUrl targetUrl = false then
      (400, "bad request: url must be absolute http(s) via ?url= or /render/<url>")
    else
      match parseUrl targetUrl with
      | none => (500, "Render error: Invalid URL")
      | some u =>
        match hostAllowed allowHosts u.host with
        | .error e => (500, "Render error: " ++ e)
        | .ok false => (403, "forbidden: host not allowed")
        | .ok true =>
          match validateResolvablePublic denyPrivateIps lookup with
          | .error e => (500, "Render error: " ++ e)
          | .ok () =>
            match (renderUrl ops c now targetUrl).result with
            | .error e => (500, "Render error: " ++ e)
            | .ok html => (200, html)

/-! ## Concrete fixtures for witness instantiations -/

/-- An all-success browser-operation oracle whose content capture yields `html`. -/
def opsAllOk (html : String) : PageOps :=
  ⟨.ok (), .ok (), .ok (), .ok (), .ok (), .ok (), .ok (), .ok (), .ok (), .ok (), .ok html, .ok ()⟩

/-- An empty cache with the default configuration (500 items, 5-minute TTL). -/
def emptyCache : Cache := ⟨500, 300000, []⟩

/-! # Theorems -/

/-! ## C2 / C3: the wildcard allow-list matcher -/

/-- C2: the claim says a wildcard pattern is compiled by escaping all regex
metacharacters except the wildcard and substituting the first wildcard with
"match any characters", so that `*.example.com` matches `a.example.com`.
In the code the escape class at line 58 omits `*`, so the subsequent
`.replace("\\*", ".*")` finds no escaped wildcard and substitutes nothing:
the compiled source keeps a bare `*`, here `^*\.example\.com$`, whose
construction throws a SyntaxError (nothing to repeat) instead of matching —
while the spec-level wildcard semantics matches the host. -/
theorem C2_wildcard_compilation_bug :
    compileWildcard "*.example.com" = "^*\\.example\\.com$".data ∧
    parseRegex (compileWildcard "*.example.com") = none ∧
    wildcardMatch "a.example.com" "*.example.com" =
      Except.error (regexSyntaxErrorMsg (compileWildcard "*.example.com")) ∧
    specWildcardMatch "a.example.com" "*.example.com" = true ∧
    wildcardMatch "ab.example.com" "a*.example.com" = Except.ok false ∧
    specWildcardMatch "ab.example.com" "a*.example.com" = true :=
  ⟨rfl, rfl, rfl, rfl, rfl, rfl⟩

/-- C3: the empty allow-list admits every host, as claimed; but with the
pattern set `{"*.example.com"}` the matcher throws a construction-time
SyntaxError for every probed host (surfaced as a 500 by the endpoint),
instead of the claimed true/false/false. -/
theorem C3_allowlist_bug :
    (∀ h : String, hostAllowed [] h = Except.ok true) ∧
    hostAllowed ["*.example.com"] "a.example.com" =
      Except.error (regexSyntaxErrorMsg (compileWildcard "*.example.com")) ∧
    hostAllowed ["*.example.com"] "example.com" =
      Except.error (regexSyntaxErrorMsg (compileWildcard "*.example.com")) ∧
    hostAllowed ["*.example.com"] "evil.com" =
      Except.error (regexSyntaxErrorMsg (compileWildcard "*.example.com")) :=
  ⟨fun _ => rfl, rfl, rfl, rfl⟩

/-! ## C4: PageContext cleanup -/

/-- C4 (counterexample): a render attempt in which the page is created and
`setUserAgent` rejects exits with that error *without* the page having been
closed — the claim's "closed on every exit path ... at any step after
creation" fails for the steps between creation (line 138) and the `try`
block (line 152). -/
theorem C4_counterexample :
    (renderUrl ⟨.ok (), .ok (), .error "Session closed", .ok (), .ok (), .ok (), .ok (), .ok (),
        .ok (), .ok (), .ok "", .ok ()⟩ emptyCache 0 "https://a.com/p").pageCreated = true ∧
    (renderUrl ⟨.ok (), .ok (), .error "Session closed", .ok (), .ok (), .ok (), .ok (), .ok (),
        .ok (), .ok (), .ok "", .ok ()⟩ emptyCache 0 "https://a.com/p").pageClosed = false ∧
    (renderUrl ⟨.ok (), .ok (), .error "Session closed", .ok (), .ok (), .ok (), .ok (), .ok (),
        .ok (), .ok (), .ok "", .ok ()⟩ emptyCache 0 "https://a.com/p").result =
      Except.error "Session closed" :=
  ⟨rfl, rfl, rfl⟩

/-- C4 (amended): when the user-agent and request-interception setup steps
succeed, every render attempt that creates a PageContext closes it on every
exit path — success and every thrown error from navigation onward — and a
failure of `page.close()` itself is suppressed: the attempt's outcome does
not depend on the close outcome. -/
theorem C4_amended (ops : PageOps) (c : Cache) (now : Nat) (url : String) :
    (ops.setUserAgent = .ok () → ops.setRequestInterception = .ok () →
      (renderUrl ops c now url).pageCreated = true →
      (renderUrl ops c now url).pageClosed = true) ∧
    (∀ cl cl' : Except String Unit,
      (renderUrl { ops with close := cl } c now url).result =
        (renderUrl { ops with close := cl' } c now url).result) := by
  obtain ⟨l, np, ua, sri, g, ws, n, wf, ib, ss, ct, cl0⟩ := ops
  constructor
  · intro hua hsri
    cases hua
    cases hsri
    simp only [renderUrl]
    rcases cacheGet c now url with ⟨fromCache, c1⟩
    rcases fromCache with _ | h
    · cases l <;> cases np <;> simp [renderTryBlock]
    · by_cases hh : h ≠ "" <;> cases l <;> cases np <;> simp [hh, renderTryBlock]
  · intro cl cl'
    rfl

/-- C4 (amended) witness: with an all-success oracle on an empty cache the
page is created and closed, and flipping the close outcome to a failure
leaves the result unchanged. -/
theorem C4_amended_witness :
    (renderUrl (opsAllOk "<html></html>") emptyCache 0 "https://a.com/p").pageClosed = true ∧
    (renderUrl { opsAllOk "<html></html>" with close := .error "close failed" }
        emptyCache 0 "https://a.com/p").result =
      (renderUrl { opsAllOk "<html></html>" with close := .ok () }
        emptyCache 0 "https://a.com/p").result :=
  ⟨(C4_amended (opsAllOk "<html></html>") emptyCache 0 "https://a.com/p").1 rfl rfl rfl,
   (C4_amended (opsAllOk "<html></html>") emptyCache 0 "https://a.com/p").2
     (.error "close failed") (.ok ())⟩

/-! ## C5: authentication -/

/-- C5: a request is rejected with 401 exactly when the configured secret is
empty (unset) or the `X-Render-Secret` header differs from it — in
particular every request is rejected when the secret is empty, even with a
matching empty header, and with a non-empty secret the request passes
authentication (reaching a non-401 outcome) iff the header equals it. -/
theorem C5_auth_fail_closed (secret : String) (header : Option String)
    (queryUrl : Option String) (path : String) (allowHosts : List String)
    (denyPrivateIps : Bool) (lookup : Except String (List String))
    (ops : PageOps) (c : Cache) (now : Nat) :
    ((handleRender secret header queryUrl path allowHosts denyPrivateIps lookup ops c now).1
        = 401)
      ↔ (secret = "" ∨ header ≠ some secret) := by
  unfold handleRender
  split
  next hcond => simpa using hcond
  next hcond =>
    simp only [hcond, iff_false]
    repeat' split
    all_goals norm_num

/-! ## C9: fatal vs non-fatal timeouts -/

/-- C9: within a render attempt that reaches the browser (cache miss, page
created and configured), a navigation failure is fatal — the attempt's
result is that error (and the page is still closed) — while the
marker-element wait and the readiness-predicate wait are non-fatal: their
outcomes are discarded, and with the remaining steps succeeding the attempt
captures and returns the page content regardless of them. -/
theorem C9_timeout_fatality (ops : PageOps) (c : Cache) (now : Nat) (url m h : String)
    (hmiss : (cacheGet c now url).1 = none)
    (hl : ops.launch = .ok ()) (hnp : ops.newPage = .ok ())
    (hua : ops.setUserAgent = .ok ()) (hsri : ops.setRequestInterception = .ok ()) :
    (ops.goto = .error m →
      (renderUrl ops c now url).result = Except.error m ∧
      (renderUrl ops c now url).pageClosed = true) ∧
    (ops.goto = .ok () → ops.nudge = .ok () → ops.injectBase = .ok () →
      ops.stripScripts = .ok () → ops.content = .ok h →
      (renderUrl ops c now url).result = Except.ok h) := by
  obtain ⟨l, np, ua, sri, g, ws, n, wf, ib, ss, ct, cl⟩ := ops
  simp only at hl hnp hua hsri
  cases hl; cases hnp; cases hua; cases hsri
  constructor
  · intro hg
    cases hg
    simp only [renderUrl]
    rcases hcg : cacheGet c now url with ⟨fromCache, c1⟩
    rw [hcg] at hmiss
    rcases fromCache with _ | hv
    · simp [renderTryBlock]
    · simp at hmiss
  · intro hg hn hib hss hct
    cases hg; cases hn; cases hib; cases hss; cases hct
    simp only [renderUrl]
    rcases hcg : cacheGet c now url with ⟨fromCache, c1⟩
    rw [hcg] at hmiss
    rcases fromCache with _ | hv
    · simp [renderTryBlock]
    · simp at hmiss

/-- C9 witness: on an empty cache, a navigation timeout propagates (with the
page closed), and an attempt whose marker and readiness waits both time out
still returns the captured content. -/
theorem C9_witness :
    ((renderUrl ⟨.ok (), .ok (), .ok (), .ok (), .error "Navigation timeout of 20000 ms exceeded",
        .ok (), .ok (), .ok (), .ok (), .ok (), .ok "x", .ok ()⟩ emptyCache 0 "https://a.com/p").result =
      Except.error "Navigation timeout of 20000 ms exceeded" ∧
     (renderUrl ⟨.ok (), .ok (), .ok (), .ok (), .error "Navigation timeout of 20000 ms exceeded",
        .ok (), .ok (), .ok (), .ok (), .ok (), .ok "x", .ok ()⟩ emptyCache 0 "https://a.com/p").pageClosed = true) ∧
    (renderUrl ⟨.ok (), .ok (), .ok (), .ok (), .ok (), .error "waiting for selector failed",
        .ok (), .error "waiting for function failed", .ok (), .ok (), .ok "<html>x</html>", .ok ()⟩
        emptyCache 0 "https://a.com/p").result = Except.ok "<html>x</html>" :=
  ⟨(C9_timeout_fatality _ emptyCache 0 "https://a.com/p"
      "Navigation timeout of 20000 ms exceeded" "x" rfl rfl rfl rfl rfl).1 rfl,
   (C9_timeout_fatality _ emptyCache 0 "https://a.com/p" "m" "<html>x</html>"
      rfl rfl rfl rfl rfl).2 rfl rfl rfl rfl rfl⟩

/-! ## C10: empty cached HTML is a miss -/

/-- C10: the cache-hit short-circuit applies only to truthy (non-empty)
cached HTML: when the lookup yields the empty string the pipeline proceeds
to a fresh navigation (page created, navigation attempted) even within the
TTL window, whereas a non-empty cached value is returned without any page
creation or navigation. -/
theorem C10_empty_cache_value_is_miss (ops : PageOps) (c : Cache) (now : Nat) (url : String)
    (hl : ops.launch = .ok ()) (hnp : ops.newPage = .ok ())
    (hua : ops.setUserAgent = .ok ()) (hsri : ops.setRequestInterception = .ok ()) :
    ((cacheGet c now url).1 = some "" →
      (renderUrl ops c now url).pageCreated = true ∧
      (renderUrl ops c now url).navigated = true) ∧
    (∀ h : String, h ≠ "" → (cacheGet c now url).1 = some h →
      (renderUrl ops c now url).result = Except.ok h ∧
      (renderUrl ops c now url).pageCreated = false ∧
      (renderUrl ops c now url).navigated = false) := by
  obtain ⟨l, np, ua, sri, g, ws, n, wf, ib, ss, ct, cl⟩ := ops
  simp only at hl hnp hua hsri
  cases hl; cases hnp; cases hua; cases hsri
  constructor
  · intro hhit
    simp only [renderUrl]
    rcases hcg : cacheGet c now url with ⟨fromCache, c1⟩
    rw [hcg] at hhit
    rcases fromCache with _ | hv
    · simp at hhit
    · simp at hhit
      cases hhit
      cases g <;> simp [renderTryBlock]
  · intro h hne hhit
    simp only [renderUrl]
    rcases hcg : cacheGet c now url with ⟨fromCache, c1⟩
    rw [hcg] at hhit
    rcases fromCache with _ | hv
    · simp at hhit
    · simp at hhit
      cases hhit
      simp [hne]

/-- C10 witness: with `""` cached for the target (fresh, within TTL), the
render navigates; with `"<p>x</p>"` cached it is served without navigating. -/
theorem C10_witness :
    ((renderUrl (opsAllOk "y") ⟨500, 300000, [⟨"https://a.com/p", "", 0⟩]⟩ 1
        "https://a.com/p").navigated = true) ∧
    ((renderUrl (opsAllOk "y") ⟨500, 300000, [⟨"https://a.com/p", "<p>x</p>", 0⟩]⟩ 1
        "https://a.com/p").result = Except.ok "<p>x</p>") :=
  ⟨((C10_empty_cache_value_is_miss (opsAllOk "y") ⟨500, 300000, [⟨"https://a.com/p", "", 0⟩]⟩ 1
      "https://a.com/p" rfl rfl rfl rfl).1 rfl).2,
   ((C10_empty_cache_value_is_miss (opsAllOk "y") ⟨500, 300000, [⟨"https://a.com/p", "<p>x</p>", 0⟩]⟩ 1
      "https://a.com/p" rfl rfl rfl rfl).2 "<p>x</p>" (by decide) rfl).1⟩

/-! ## C7: render idempotence within the TTL window -/

theorem cacheGet_ttl (c : Cache) (now : Nat) (k : String) :
    (cacheGet c now k).2.ttl = c.ttl := by
  unfold cacheGet
  split
  · rfl
  · split <;> rfl

theorem cacheGet_set_entries (maxI ttl now now2 : Nat) (k v : String)
    (tail : List CacheEntry)
    (hfresh : entryStale ⟨maxI, ttl, []⟩ ⟨k, v, now⟩ now2 = false) :
    (cacheGet ⟨maxI, ttl, ⟨k, v, now⟩ :: tail⟩ now2 k).1 = some v := by
  have hs : entryStale (⟨maxI, ttl, ⟨k, v, now⟩ :: tail⟩ : Cache) ⟨k, v, now⟩ now2 = false := by
    simpa [entryStale] using hfresh
  simp [cacheGet, List.find?_cons_of_pos, hs]

theorem cacheGet_after_set (c : Cache) (now now2 : Nat) (k v : String)
    (hfresh : entryStale c ⟨k, v, now⟩ now2 = false) :
    (cacheGet (cacheSet c now k v) now2 k).1 = some v := by
  unfold cacheSet
  by_cases hmax : c.maxItems = 0
  · simp only [hmax, if_pos]
    exact cacheGet_set_entries 0 c.ttl now now2 k v _ (by simpa [entryStale] using hfresh)
  · obtain ⟨m, hm⟩ := Nat.exists_eq_succ_of_ne_zero hmax
    simp only [hm, if_neg (Nat.succ_ne_zero m), List.take_succ_cons]
    exact cacheGet_set_entries m.succ c.ttl now now2 k v _ (by simpa [entryStale] using hfresh)

/-- C7: two successive, non-overlapping renders of the same target within
the TTL window (the first a cache miss whose pipeline succeeds, capturing
non-empty HTML — DOM serialization never yields the empty string) return
byte-identical HTML and trigger exactly one browser navigation: the first
render navigates, and the second is served from the cache without creating
a page or navigating, whatever its oracle would have done. -/
theorem C7_idempotence_within_ttl (c : Cache) (now1 now2 : Nat) (url h : String)
    (ops1 ops2 : PageOps)
    (hmiss : (cacheGet c now1 url).1 = none)
    (h1l : ops1.launch = .ok ()) (h1np : ops1.newPage = .ok ())
    (h1ua : ops1.setUserAgent = .ok ()) (h1sri : ops1.setRequestInterception = .ok ())
    (h1g : ops1.goto = .ok ()) (h1n : ops1.nudge = .ok ())
    (h1ib : ops1.injectBase = .ok ()) (h1ss : ops1.stripScripts = .ok ())
    (h1ct : ops1.content = .ok h) (hne : h ≠ "")
    (hwin : now2 < now1 + c.ttl) :
    (renderUrl ops1 c now1 url).result = Except.ok h ∧
    (renderUrl ops1 c now1 url).navigated = true ∧
    (renderUrl ops2 (renderUrl ops1 c now1 url).cacheAfter now2 url).result = Except.ok h ∧
    (renderUrl ops2 (renderUrl ops1 c now1 url).cacheAfter now2 url).navigated = false ∧
    (renderUrl ops2 (renderUrl ops1 c now1 url).cacheAfter now2 url).pageCreated = false := by
  obtain ⟨l, np, ua, sri, g, ws, n, wf, ib, ss, ct, cl⟩ := ops1
  simp only at h1l h1np h1ua h1sri h1g h1n h1ib h1ss h1ct
  cases h1l; cases h1np; cases h1ua; cases h1sri
  cases h1g; cases h1n; cases h1ib; cases h1ss; cases h1ct
  have hr1 : renderUrl ⟨.ok (), .ok (), .ok (), .ok (), .ok (), ws, .ok (), wf, .ok (),
      .ok (), .ok h, cl⟩ c now1 url =
      ⟨Except.ok h, true, true, true, cacheSet (cacheGet c now1 url).2 now1 url h⟩ := by
    simp only [renderUrl, renderTryBlock]
    rcases hcg : cacheGet c now1 url with ⟨fc, c1⟩
    rw [hcg] at hmiss
    simp only at hmiss
    cases hmiss
    simp
  rw [hr1]
  refine ⟨rfl, rfl, ?_⟩
  have hfresh : entryStale (cacheGet c now1 url).2 ⟨url, h, now1⟩ now2 = false := by
    simp only [entryStale, cacheGet_ttl]
    by_cases h0 : c.ttl = 0
    · simp [h0]
    · simp only [Bool.and_eq_false_iff]
      right
      simpa using Nat.not_le.mpr hwin
  have hhit := cacheGet_after_set (cacheGet c now1 url).2 now1 now2 url h hfresh
  simp only [RenderResult.cacheAfter]
  simp only [renderUrl]
  rcases hcg2 : cacheGet (cacheSet (cacheGet c now1 url).2 now1 url h) now2 url with ⟨fc2, c2⟩
  rw [hcg2] at hhit
  simp only at hhit
  cases hhit
  simp [hne]

/-- C7 witness: a fresh render of `https://a.com/p` into an empty cache
followed by a second render 100 ms later. -/
theorem C7_witness :
    (renderUrl (opsAllOk "<html>a</html>") emptyCache 0 "https://a.com/p").navigated = true ∧
    (renderUrl (opsAllOk "<html>b</html>")
        (renderUrl (opsAllOk "<html>a</html>") emptyCache 0 "https://a.com/p").cacheAfter
        100 "https://a.com/p").result = Except.ok "<html>a</html>" ∧
    (renderUrl (opsAllOk "<html>b</html>")
        (renderUrl (opsAllOk "<html>a</html>") emptyCache 0 "https://a.com/p").cacheAfter
        100 "https://a.com/p").navigated = false := by
  have hmain := C7_idempotence_within_ttl emptyCache 0 100 "https://a.com/p" "<html>a</html>"
    (opsAllOk "<html>a</html>") (opsAllOk "<html>b</html>")
    rfl rfl rfl rfl rfl rfl rfl rfl rfl rfl (by decide) (by decide)
  exact ⟨hmain.2.1, hmain.2.2.1, hmain.2.2.2.1⟩

/-! ## C8: target extraction -/

/-- C8: the `url` query parameter is preferred whenever it is a non-empty
string; otherwise the remainder of a `/render/…` path is taken and
percent-decoded, with the raw remainder used when decoding throws; in
particular `/render?url=https://a.com/p` and
`/render/https%3A%2F%2Fa.com%2Fp` resolve to the same target. -/
theorem C8_target_extraction :
    (∀ q path : String, q ≠ "" → extractTargetUrl (some q) path = q) ∧
    (∀ (path : String) (rest d : List Char), renderPathRemainder path = some rest →
      pctDecode rest = some d → extractFromPath path = String.mk d) ∧
    (∀ (path : String) (rest : List Char), renderPathRemainder path = some rest →
      pctDecode rest = none → extractFromPath path = String.mk rest) ∧
    extractTargetUrl (some "https://a.com/p") "/render" = "https://a.com/p" ∧
    extractTargetUrl none "/render/https%3A%2F%2Fa.com%2Fp" = "https://a.com/p" := by
  refine ⟨?_, ?_, ?_, rfl, rfl⟩
  · intro q path hq
    simp [extractTargetUrl, hq]
  · intro path rest d hr hd
    simp [extractFromPath, hr, hd]
  · intro path rest hr hd
    simp [extractFromPath, hr, hd]

/-- C8 witness: the query branch at a concrete non-empty value, a decodable
path remainder, and a malformed escape falling back to the raw remainder. -/
theorem C8_witness :
    extractTargetUrl (some "https://a.com/p") "/render" = "https://a.com/p" ∧
    extractFromPath "/render/abc%2Fdef" = "abc/def" ∧
    extractFromPath "/render/abc%GGdef" = "abc%GGdef" :=
  ⟨C8_target_extraction.1 "https://a.com/p" "/render" (by decide),
   C8_target_extraction.2.1 "/render/abc%2Fdef" "abc%2Fdef".data "abc/def".data rfl rfl,
   C8_target_extraction.2.2.1 "/render/abc%GGdef" "abc%GGdef".data rfl rfl⟩

/-! ## C6: validation order and status mapping -/

/-- C6: the render endpoint validates in the order authentication (401),
absolute-http(s) target (400), allow-list (403), public-IP check — whose
failure, like any later render failure, surfaces as a 500 whose body wraps
the underlying message (`"Render error: …"`), with no dedicated SSRF status
code. -/
theorem C6_validation_order (secret : String) (header : Option String)
    (queryUrl : Option String) (path : String) (allowHosts : List String)
    (denyPrivateIps : Bool) (lookup : Except String (List String))
    (ops : PageOps) (c : Cache) (now : Nat) :
    ((secret = "" ∨ header ≠ some secret) →
      handleRender secret header queryUrl path allowHosts denyPrivateIps lookup ops c now
        = (401, "unauthorized")) ∧
    (secret ≠ "" → header = some secret →
      isAbsoluteHttpUrl (extractTargetUrl queryUrl path) = false →
      handleRender secret header queryUrl path allowHosts denyPrivateIps lookup ops c now
        = (400, "bad request: url must be absolute http(s) via ?url= or /render/<url>")) ∧
    (∀ u : UrlParts, secret ≠ "" → header = some secret →
      isAbsoluteHttpUrl (extractTargetUrl queryUrl path) = true →
      parseUrl (extractTargetUrl queryUrl path) = some u →
      hostAllowed allowHosts u.host = Except.ok false →
      handleRender secret header queryUrl path allowHosts denyPrivateIps lookup ops c now
        = (403, "forbidden: host not allowed")) ∧
    (∀ (u : UrlParts) (m : String), secret ≠ "" → header = some secret →
      isAbsoluteHttpUrl (extractTargetUrl queryUrl path) = true →
      parseUrl (extractTargetUrl queryUrl path) = some u →
      hostAllowed allowHosts u.host = Except.ok true →
      validateResolvablePublic denyPrivateIps lookup = Except.error m →
      handleRender secret header queryUrl path allowHosts denyPrivateIps lookup ops c now
        = (500, "Render error: " ++ m)) := by
  refine ⟨?_, ?_, ?_, ?_⟩
  · intro hauth
    unfold handleRender
    rw [if_pos hauth]
  · intro hs hh h400
    unfold handleRender
    rw [if_neg (by simp [hs, hh]), if_pos h400]
  · intro u hs hh habs hparse hdeny
    unfold handleRender
    rw [if_neg (by simp [hs, hh]), if_neg (by simp [habs]), hparse]
    simp [hdeny]
  · intro u m hs hh habs hparse hallow hpub
    unfold handleRender
    rw [if_neg (by simp [hs, hh]), if_neg (by simp [habs]), hparse]
    simp [hallow, hpub]

/-- C6 witness: concrete requests hitting, in turn, the 401, 400, 403 and
500-from-the-public-IP-check outcomes. -/
theorem C6_witness :
    handleRender "" (some "") (some "https://a.com/p") "/render" [] true
      (.ok ["1.2.3.4"]) (opsAllOk "x") emptyCache 0 = (401, "unauthorized") ∧
    handleRender "s1" (some "s1") (some "not-a-url") "/render" [] true
      (.ok ["1.2.3.4"]) (opsAllOk "x") emptyCache 0
      = (400, "bad request: url must be absolute http(s) via ?url= or /render/<url>") ∧
    handleRender "s1" (some "s1") (some "https://a.com/p") "/render" ["b.com"] true
      (.ok ["1.2.3.4"]) (opsAllOk "x") emptyCache 0 = (403, "forbidden: host not allowed") ∧
    handleRender "s1" (some "s1") (some "https://a.com/p") "/render" [] true
      (.ok ["10.0.0.5"]) (opsAllOk "x") emptyCache 0
      = (500, "Render error: private ip blocked") :=
  ⟨(C6_validation_order "" (some "") (some "https://a.com/p") "/render" [] true
      (.ok ["1.2.3.4"]) (opsAllOk "x") emptyCache 0).1 (Or.inl rfl),
   (C6_validation_order "s1" (some "s1") (some "not-a-url") "/render" [] true
      (.ok ["1.2.3.4"]) (opsAllOk "x") emptyCache 0).2.1 (by decide) rfl rfl,
   (C6_validation_order "s1" (some "s1") (some "https://a.com/p") "/render" ["b.com"] true
      (.ok ["1.2.3.4"]) (opsAllOk "x") emptyCache 0).2.2.1 ⟨"https:", "a.com"⟩
      (by decide) rfl rfl rfl rfl,
   (C6_validation_order "s1" (some "s1") (some "https://a.com/p") "/render" [] true
      (.ok ["10.0.0.5"]) (opsAllOk "x") emptyCache 0).2.2.2 ⟨"https:", "a.com"⟩
      "private ip blocked" (by decide) rfl rfl rfl rfl rfl⟩

/-! ## C1: the public-IP (SSRF) denylist

The spec words the IPv6 link-local range as fe80::/10; the code's textual
probe `ip.startsWith("fe80:")` covers exactly fe80::/16 of it.  The lemmas
below characterise the code's textual probes on the canonical renderings of
structured addresses, exactly. -/

theorem decOctet_facts : ∀ o : Fin 256,
    '.' ∉ decOctet o.val ∧ ':' ∉ decOctet o.val ∧ decOctet o.val ≠ [] ∧
    validOctet (decOctet o.val) = true := by decide

theorem decOctet_eq_const : ∀ o : Fin 256,
    ((decOctet o.val = "10".data) ↔ o.val = 10) ∧
    ((decOctet o.val = "192".data) ↔ o.val = 192) ∧
    ((decOctet o.val = "168".data) ↔ o.val = 168) ∧
    ((decOctet o.val = "169".data) ↔ o.val = 169) ∧
    ((decOctet o.val = "254".data) ↔ o.val = 254) ∧
    ((decOctet o.val = "172".data) ↔ o.val = 172) ∧
    ((decOctet o.val = "127".data) ↔ o.val = 127) ∧
    ((decOctet o.val = "0".data) ↔ o.val = 0) ∧
    ((decOctet o.val = "1".data) ↔ o.val = 1) := by decide

theorem decOctet_eq_teens : ∀ o : Fin 256,
    ((decOctet o.val = "16".data) ↔ o.val = 16) ∧
    ((decOctet o.val = "17".data) ↔ o.val = 17) ∧
    ((decOctet o.val = "18".data) ↔ o.val = 18) ∧
    ((decOctet o.val = "19".data) ↔ o.val = 19) ∧
    ((decOctet o.val = "20".data) ↔ o.val = 20) ∧
    ((decOctet o.val = "21".data) ↔ o.val = 21) ∧
    ((decOctet o.val = "22".data) ↔ o.val = 22) ∧
    ((decOctet o.val = "23".data) ↔ o.val = 23) ∧
    ((decOctet o.val = "24".data) ↔ o.val = 24) ∧
    ((decOctet o.val = "25".data) ↔ o.val = 25) ∧
    ((decOctet o.val = "26".data) ↔ o.val = 26) ∧
    ((decOctet o.val = "27".data) ↔ o.val = 27) ∧
    ((decOctet o.val = "28".data) ↔ o.val = 28) ∧
    ((decOctet o.val = "29".data) ↔ o.val = 29) ∧
    ((decOctet o.val = "30".data) ↔ o.val = 30) ∧
    ((decOctet o.val = "31".data) ↔ o.val = 31) := by decide

theorem sep_cons_isPrefixOf (sep : Char) (p x pt xt : List Char)
    (hp : sep ∉ p) (hx : sep ∉ x) :
    (p ++ sep :: pt).isPrefixOf (x ++ sep :: xt) = true ↔
      p = x ∧ pt.isPrefixOf xt = true := by
  induction p generalizing x with
  | nil =>
    cases x with
    | nil => simp [List.isPrefixOf]
    | cons b bs =>
      have hb : b ≠ sep := fun h => hx (h ▸ List.mem_cons_self b bs)
      have hsb : sep ≠ b := fun h => hb h.symm
      simp [List.isPrefixOf, hsb]
  | cons a as ih =>
    have ha : a ≠ sep := fun h => hp (h ▸ List.mem_cons_self a as)
    cases x with
    | nil =>
      simp [List.isPrefixOf, ha]
    | cons b bs =>
      have hp' : sep ∉ as := fun h => hp (List.mem_cons_of_mem a h)
      have hx' : sep ∉ bs := fun h => hx (List.mem_cons_of_mem b h)
      simp [List.isPrefixOf, ih bs hp' hx', List.cons.injEq, and_assoc]

theorem sep_cons_eq (sep : Char) (p x pt xt : List Char)
    (hp : sep ∉ p) (hx : sep ∉ x) :
    (p ++ sep :: pt = x ++ sep :: xt) ↔ p = x ∧ pt = xt := by
  induction p generalizing x with
  | nil =>
    cases x with
    | nil => simp
    | cons b bs =>
      have hb : b ≠ sep := fun h => hx (h ▸ List.mem_cons_self b bs)
      have hsb : sep ≠ b := fun h => hb h.symm
      simp [hsb]
  | cons a as ih =>
    have ha : a ≠ sep := fun h => hp (h ▸ List.mem_cons_self a as)
    cases x with
    | nil => simp [ha]
    | cons b bs =>
      have hp' : sep ∉ as := fun h => hp (List.mem_cons_of_mem a h)
      have hx' : sep ∉ bs := fun h => hx (List.mem_cons_of_mem b h)
      simp [ih bs hp' hx', List.cons.injEq, and_assoc]

theorem splitOnChar_no_sep (sep : Char) (xs : List Char) (h : sep ∉ xs) :
    splitOnChar sep xs = [xs] := by
  induction xs with
  | nil => rfl
  | cons c rest ih =>
    have hc : c ≠ sep := fun hh => h (hh ▸ List.mem_cons_self c rest)
    have hr : sep ∉ rest := fun hh => h (List.mem_cons_of_mem c hh)
    simp [splitOnChar, hc, ih hr]

theorem splitOnChar_append (sep : Char) (xs ys : List Char) (h : sep ∉ xs) :
    splitOnChar sep (xs ++ sep :: ys) = xs :: splitOnChar sep ys := by
  induction xs with
  | nil => simp [splitOnChar]
  | cons c rest ih =>
    have hc : c ≠ sep := fun hh => h (hh ▸ List.mem_cons_self c rest)
    have hr : sep ∉ rest := fun hh => h (List.mem_cons_of_mem c hh)
    simp [splitOnChar, hc, ih hr]

theorem hexChar_props : ∀ m : Fin 16,
    isHexDigitChar (hexChar m.val) = true ∧ hexChar m.val ≠ ':' ∧ hexChar m.val ≠ '.' := by
  decide

theorem hexChar_eq_const : ∀ m : Fin 16,
    ((hexChar m.val = 'f') ↔ m.val = 15) ∧ ((hexChar m.val = 'e') ↔ m.val = 14) ∧
    ((hexChar m.val = '8') ↔ m.val = 8) ∧ ((hexChar m.val = '0') ↔ m.val = 0) ∧
    ((hexChar m.val = '1') ↔ m.val = 1) := by
  decide

theorem hexGroup_chars (n : Nat) (hn : n < 65536) :
    ∀ c ∈ hexGroup n, isHexDigitChar c = true := by
  have key : ∀ m : Nat, m < 16 → isHexDigitChar (hexChar m) = true :=
    fun m hm => (hexChar_props ⟨m, hm⟩).1
  intro c hc
  unfold hexGroup at hc
  split_ifs at hc with h1 h2 h3
  · simp at hc
    exact hc ▸ key n h1
  · simp at hc
    rcases hc with h | h <;> exact h ▸ key _ (by omega)
  · simp at hc
    rcases hc with h | h | h <;> exact h ▸ key _ (by omega)
  · simp at hc
    rcases hc with h | h | h | h <;> exact h ▸ key _ (by omega)

theorem hexGroup_ne_nil (n : Nat) : hexGroup n ≠ [] := by
  unfold hexGroup
  split_ifs <;> simp

theorem zeroRunAt_take (l : List Nat) : l.take (zeroRunAt l) = List.replicate (zeroRunAt l) 0 := by
  induction l with
  | nil => simp [zeroRunAt]
  | cons c t ih =>
    cases c with
    | zero => simp [zeroRunAt, ih, List.replicate_succ]
    | succ m => simp [zeroRunAt]

theorem pickBest_fold (cands : List (Nat × Nat)) (acc : Option (Nat × Nat)) (r : Nat × Nat)
    (h : cands.foldl pickBest acc = some r) : acc = some r ∨ (r ∈ cands ∧ 2 ≤ r.2) := by
  induction cands generalizing acc with
  | nil => exact Or.inl h
  | cons cdd t ih =>
    rcases ih (pickBest acc cdd) h with h1 | h2
    · unfold pickBest at h1
      split at h1
      · next hb =>
        cases h1
        refine Or.inr ⟨List.mem_cons_self _ _, ?_⟩
        unfold betterRun at hb
        simp at hb
        exact hb.1
      · exact Or.inl h1
    · exact Or.inr ⟨List.mem_cons_of_mem _ h2.1, h2.2⟩

theorem bestRun_spec (gs : List Nat) (s l : Nat) (h : bestRun gs = some (s, l)) :
    2 ≤ l ∧ s < gs.length ∧ l = zeroRunAt (gs.drop s) := by
  rcases pickBest_fold (runCandidates gs) none (s, l) h with h1 | h2
  · exact Option.noConfusion h1
  · obtain ⟨hmem, hl⟩ := h2
    unfold runCandidates at hmem
    simp only [List.mem_map, List.mem_range] at hmem
    obtain ⟨i, hi, hpair⟩ := hmem
    cases hpair
    exact ⟨hl, hi, rfl⟩

theorem bestRun_zero_head (g0 : Nat) (rest : List Nat) (l : Nat)
    (h : bestRun (g0 :: rest) = some (0, l)) : g0 = 0 ∧ 2 ≤ l := by
  obtain ⟨hl2, _, hzr⟩ := bestRun_spec (g0 :: rest) 0 l h
  rw [List.drop_zero] at hzr
  cases g0 with
  | zero => exact ⟨rfl, hl2⟩
  | succ m =>
    simp [zeroRunAt] at hzr
    omega

theorem ic_cons_ne (x : List Char) (xs : List (List Char)) (h : xs ≠ []) :
    intercalateColon (x :: xs) = x ++ ':' :: intercalateColon xs := by
  cases xs with
  | nil => exact absurd rfl h
  | cons y t => rfl

theorem ic_chars (xs : List (List Char)) (c : Char) (hc : c ∈ intercalateColon xs) :
    (∃ x ∈ xs, c ∈ x) ∨ c = ':' := by
  induction xs with
  | nil => simp [intercalateColon] at hc
  | cons x t ih =>
    cases t with
    | nil =>
      simp [intercalateColon] at hc
      exact Or.inl ⟨x, by simp, hc⟩
    | cons y u =>
      rw [ic_cons_ne x (y :: u) (by simp)] at hc
      rcases List.mem_append.mp hc with h1 | h2
      · exact Or.inl ⟨x, by simp, h1⟩
      · rcases List.mem_cons.mp h2 with h3 | h4
        · exact Or.inr h3
        · rcases ih h4 with ⟨z, hz, hcz⟩ | h5
          · exact Or.inl ⟨z, by simp [hz], hcz⟩
          · exact Or.inr h5

theorem ic_colon_mem (x y : List Char) (t : List (List Char)) :
    ':' ∈ intercalateColon (x :: y :: t) := by
  rw [ic_cons_ne x (y :: t) (by simp)]
  exact List.mem_append.mpr (Or.inr (List.mem_cons_self _ _))

theorem hexGroup_eq_fe80 (n : Nat) (hn : n < 65536) :
    hexGroup n = "fe80".data ↔ n = 65152 := by
  have hfe : ("fe80".data : List Char) = ['f', 'e', '8', '0'] := rfl
  constructor
  · intro h
    rw [hfe] at h
    unfold hexGroup at h
    split_ifs at h with h1 h2 h3
    · simp at h
    · simp at h
    · simp at h
    · simp only [List.cons.injEq, and_true] at h
      obtain ⟨ha, hb, hc, hd⟩ := h
      have e1 := (hexChar_eq_const ⟨n / 4096, by omega⟩).1.mp ha
      have e2 := (hexChar_eq_const ⟨n / 256 % 16, by omega⟩).2.1.mp hb
      have e3 := (hexChar_eq_const ⟨n / 16 % 16, by omega⟩).2.2.1.mp hc
      have e4 := (hexChar_eq_const ⟨n % 16, by omega⟩).2.2.2.1.mp hd
      simp only at e1 e2 e3 e4
      omega
  · intro h
    subst h
    rfl

theorem hexGroup_eq_one (n : Nat) (hn : n < 65536) :
    hexGroup n = ['1'] ↔ n = 1 := by
  constructor
  · intro h
    unfold hexGroup at h
    split_ifs at h with h1 h2 h3
    · simp only [List.cons.injEq, and_true] at h
      have := (hexChar_eq_const ⟨n, h1⟩).2.2.2.2.mp h
      simpa using this
    · simp at h
    · simp at h
    · simp at h
  · intro h
    subst h
    rfl

theorem hexGroup_no_colon (n : Nat) (hn : n < 65536) : ':' ∉ hexGroup n := by
  intro hmem
  have := hexGroup_chars n hn ':' hmem
  simp [isHexDigitChar, isDigitChar] at this

theorem render6_comp0_eq (gs : List Nat) (l : Nat) (hbr : bestRun gs = some (0, l)) :
    render6 gs = ':' :: ':' :: intercalateColon ((gs.drop l).map hexGroup) := by
  unfold render6
  rw [hbr]
  simp [intercalateColon]

theorem render6_cases (g0 : Nat) (r : List Nat) (hr : r ≠ []) :
    (∃ l, bestRun (g0 :: r) = some (0, l)) ∨
    (∃ tail, render6 (g0 :: r) = hexGroup g0 ++ ':' :: tail) := by
  cases hbr : bestRun (g0 :: r) with
  | none =>
    right
    unfold render6
    rw [hbr, List.map_cons, ic_cons_ne _ _ (by simpa using hr)]
    exact ⟨_, rfl⟩
  | some sl =>
    obtain ⟨s, l⟩ := sl
    cases s with
    | zero => exact Or.inl ⟨l, rfl⟩
    | succ m =>
      right
      unfold render6
      rw [hbr]
      show ∃ tail,
        intercalateColon (List.map hexGroup (List.take (m + 1) (g0 :: r))) ++
            ':' :: ':' :: intercalateColon (List.map hexGroup (List.drop (m + 1 + l) (g0 :: r))) =
          hexGroup g0 ++ ':' :: tail
      rw [List.take_succ_cons, List.map_cons]
      cases hmt : (r.take m).map hexGroup with
      | nil =>
        exact ⟨':' :: intercalateColon (List.map hexGroup (List.drop (m + 1 + l) (g0 :: r))), rfl⟩
      | cons x xs =>
        rw [ic_cons_ne _ _ (by simp)]
        exact ⟨intercalateColon (x :: xs) ++
          ':' :: ':' :: intercalateColon (List.map hexGroup (List.drop (m + 1 + l) (g0 :: r))),
          by simp⟩

theorem render6_head_form (g0 : Nat) (r : List Nat) (hr : r ≠ []) (h0 : g0 ≠ 0) :
    ∃ tail, render6 (g0 :: r) = hexGroup g0 ++ ':' :: tail := by
  rcases render6_cases g0 r hr with ⟨l, hbr⟩ | h
  · exact absurd (bestRun_zero_head g0 r l hbr).1 h0
  · exact h

theorem render6_chars (gs : List Nat) (hgs : ∀ g ∈ gs, g < 65536) (c : Char)
    (hc : c ∈ render6 gs) : isHexDigitChar c = true ∨ c = ':' := by
  unfold render6 at hc
  cases hbr : bestRun gs with
  | none =>
    rw [hbr] at hc
    rcases ic_chars _ c hc with ⟨x, hx, hcx⟩ | h
    · obtain ⟨g, hg, rfl⟩ := List.mem_map.mp hx
      exact Or.inl (hexGroup_chars g (hgs g hg) c hcx)
    · exact Or.inr h
  | some sl =>
    obtain ⟨s, l⟩ := sl
    rw [hbr] at hc
    rcases List.mem_append.mp hc with h1 | h2
    · rcases ic_chars _ c h1 with ⟨x, hx, hcx⟩ | h
      · obtain ⟨g, hg, rfl⟩ := List.mem_map.mp hx
        exact Or.inl (hexGroup_chars g (hgs g (List.take_subset s gs hg)) c hcx)
      · exact Or.inr h
    · rcases List.mem_cons.mp h2 with h3 | h4
      · exact Or.inr h3
      · rcases List.mem_cons.mp h4 with h5 | h6
        · exact Or.inr h5
        · rcases ic_chars _ c h6 with ⟨x, hx, hcx⟩ | h
          · obtain ⟨g, hg, rfl⟩ := List.mem_map.mp hx
            exact Or.inl (hexGroup_chars g (hgs g (List.drop_subset _ gs hg)) c hcx)
          · exact Or.inr h

theorem render6_no_dot (gs : List Nat) (hgs : ∀ g ∈ gs, g < 65536) :
    '.' ∉ render6 gs := by
  intro hmem
  rcases render6_chars gs hgs '.' hmem with h | h
  · simp [isHexDigitChar, isDigitChar] at h
  · simp at h

theorem render6_fe80_prefix (g0 : Nat) (r : List Nat) (hr : r ≠ [])
    (hall : ∀ g ∈ g0 :: r, g < 65536) :
    ("fe80:".data.isPrefixOf (render6 (g0 :: r)) = true) ↔ g0 = 65152 := by
  have hg0 : g0 < 65536 := hall g0 (List.mem_cons_self _ _)
  have hsplit : ("fe80:".data : List Char) = "fe80".data ++ ':' :: [] := rfl
  have hpcolon : ':' ∉ ("fe80".data : List Char) := by decide
  have hfcolon : ('f' == ':') = false := by decide
  constructor
  · intro h
    rcases render6_cases g0 r hr with ⟨l, hbr⟩ | ⟨tail, heq⟩
    · rw [render6_comp0_eq _ _ hbr] at h
      simp [List.isPrefixOf, hfcolon] at h
    · rw [heq, hsplit, sep_cons_isPrefixOf ':' _ _ _ _ hpcolon (hexGroup_no_colon g0 hg0)] at h
      exact (hexGroup_eq_fe80 g0 hg0).mp h.1.symm
  · intro h
    obtain ⟨tail, heq⟩ := render6_head_form g0 r hr (by omega)
    rw [heq, hsplit, sep_cons_isPrefixOf ':' _ _ _ _ hpcolon (hexGroup_no_colon g0 hg0)]
    exact ⟨((hexGroup_eq_fe80 g0 hg0).mpr h).symm, by simp [List.isPrefixOf]⟩

theorem render6_eq_loopback (g0 g1 g2 g3 g4 g5 g6 g7 : Nat)
    (hall : ∀ g ∈ [g0, g1, g2, g3, g4, g5, g6, g7], g < 65536) :
    render6 [g0, g1, g2, g3, g4, g5, g6, g7] = "::1".data ↔
      (g0 = 0 ∧ g1 = 0 ∧ g2 = 0 ∧ g3 = 0 ∧ g4 = 0 ∧ g5 = 0 ∧ g6 = 0 ∧ g7 = 1) := by
  have hlit : ("::1".data : List Char) = [':', ':', '1'] := rfl
  constructor
  · intro h
    rw [hlit] at h
    rcases render6_cases g0 [g1, g2, g3, g4, g5, g6, g7] (by simp) with ⟨l, hbr⟩ | ⟨tail, heq⟩
    · rw [render6_comp0_eq _ _ hbr] at h
      have hpost : intercalateColon
          (List.map hexGroup (List.drop l [g0, g1, g2, g3, g4, g5, g6, g7])) = ['1'] := by
        simpa using h
      obtain ⟨hl2, hslt, hzr⟩ := bestRun_spec _ 0 l hbr
      rw [List.drop_zero] at hzr
      cases hdrop : List.drop l [g0, g1, g2, g3, g4, g5, g6, g7] with
      | nil =>
        rw [hdrop] at hpost
        simp [intercalateColon] at hpost
      | cons x u =>
        cases u with
        | nil =>
          rw [hdrop] at hpost
          have hx : hexGroup x = ['1'] := by simpa [intercalateColon] using hpost
          have hxlt : x < 65536 :=
            hall x (List.drop_subset l _ (hdrop ▸ List.mem_cons_self x []))
          have hx1 : x = 1 := (hexGroup_eq_one x hxlt).mp hx
          have hlen : (List.drop l [g0, g1, g2, g3, g4, g5, g6, g7]).length = 1 := by
            rw [hdrop]; rfl
          rw [List.length_drop] at hlen
          simp only [List.length_cons, List.length_nil] at hlen
          have hl7 : l = 7 := by omega
          subst hl7
          have htake := zeroRunAt_take [g0, g1, g2, g3, g4, g5, g6, g7]
          rw [← hzr] at htake
          have htk : List.take 7 [g0, g1, g2, g3, g4, g5, g6, g7]
              = [g0, g1, g2, g3, g4, g5, g6] := rfl
          have hrep : (List.replicate 7 0 : List Nat) = [0, 0, 0, 0, 0, 0, 0] := rfl
          rw [htk, hrep] at htake
          simp only [List.cons.injEq, and_true] at htake
          have hdrop7 : List.drop 7 [g0, g1, g2, g3, g4, g5, g6, g7] = [g7] := rfl
          rw [hdrop7] at hdrop
          have hg7x : g7 = x := by
            have := hdrop
            simp at this
            exact this
          obtain ⟨e0, e1, e2, e3, e4, e5, e6⟩ := htake
          exact ⟨e0, e1, e2, e3, e4, e5, e6, hg7x.trans hx1⟩
        | cons y v =>
          rw [hdrop] at hpost
          have hcol : ':' ∈ intercalateColon (List.map hexGroup (x :: y :: v)) := by
            simp only [List.map_cons]
            exact ic_colon_mem _ _ _
          rw [hpost] at hcol
          simp at hcol
    · obtain ⟨hd, tl, hcons⟩ := List.exists_cons_of_ne_nil (hexGroup_ne_nil g0)
      rw [heq, hcons] at h
      simp only [List.cons_append, List.cons.injEq] at h
      have hhex : isHexDigitChar hd = true :=
        hexGroup_chars g0 (hall g0 (by simp)) hd (hcons ▸ List.mem_cons_self hd tl)
      rw [h.1] at hhex
      simp [isHexDigitChar, isDigitChar] at hhex
  · rintro ⟨rfl, rfl, rfl, rfl, rfl, rfl, rfl, rfl⟩
    rfl

theorem isPrefixOf_false_of_mem (p l : List Char) (ch : Char)
    (hc : ch ∈ p) (hl : ch ∉ l) : p.isPrefixOf l = false := by
  cases h : p.isPrefixOf l with
  | false => rfl
  | true => exact absurd ((List.isPrefixOf_iff_prefix.mp h).subset hc) hl

theorem beq_false_of_mem (p l : List Char) (ch : Char)
    (hc : ch ∈ p) (hl : ch ∉ l) : (l == p) = false := by
  cases h : l == p with
  | false => rfl
  | true => exact absurd (eq_of_beq h ▸ hc) hl

theorem render4_mem (a b c d : Fin 256) (ch : Char)
    (hch : ch ∈ render4 a.val b.val c.val d.val) :
    ch ∈ decOctet a.val ∨ ch ∈ decOctet b.val ∨ ch ∈ decOctet c.val ∨
      ch ∈ decOctet d.val ∨ ch = '.' := by
  unfold render4 at hch
  simp only [List.mem_append, List.mem_cons] at hch
  tauto

theorem render4_no_colon (a b c d : Fin 256) : ':' ∉ render4 a.val b.val c.val d.val := by
  intro hmem
  rcases render4_mem a b c d ':' hmem with h | h | h | h | h
  · exact (decOctet_facts a).2.1 h
  · exact (decOctet_facts b).2.1 h
  · exact (decOctet_facts c).2.1 h
  · exact (decOctet_facts d).2.1 h
  · exact absurd h (by decide)

theorem isIPv4Str_render4 (a b c d : Fin 256) :
    isIPv4Str (render4 a.val b.val c.val d.val) = true := by
  unfold isIPv4Str render4
  rw [splitOnChar_append '.' _ _ (decOctet_facts a).1,
      splitOnChar_append '.' _ _ (decOctet_facts b).1,
      splitOnChar_append '.' _ _ (decOctet_facts c).1,
      splitOnChar_no_sep '.' _ (decOctet_facts d).1]
  simp [(decOctet_facts a).2.2.2, (decOctet_facts b).2.2.2,
        (decOctet_facts c).2.2.2, (decOctet_facts d).2.2.2]

theorem netIsIP_render4 (a b c d : Fin 256) :
    netIsIP (String.mk (render4 a.val b.val c.val d.val)) = true := by
  unfold netIsIP
  have h := isIPv4Str_render4 a b c d
  simp only [String.data]
  rw [h]
  rfl

theorem render4_pair_prefix (a b c d : Fin 256) (p q : List Char)
    (hp : '.' ∉ p) (hq : '.' ∉ q) :
    ((p ++ '.' :: (q ++ '.' :: [])).isPrefixOf (render4 a.val b.val c.val d.val) = true) ↔
      (decOctet a.val = p ∧ decOctet b.val = q) := by
  unfold render4
  rw [sep_cons_isPrefixOf '.' _ _ _ _ hp (decOctet_facts a).1,
      sep_cons_isPrefixOf '.' _ _ _ _ hq (decOctet_facts b).1]
  simp only [List.isPrefixOf, and_true]
  constructor
  · exact fun ⟨h1, h2⟩ => ⟨h1.symm, h2.symm⟩
  · exact fun ⟨h1, h2⟩ => ⟨h1.symm, h2.symm⟩

theorem render4_single_prefix (a b c d : Fin 256) (p : List Char) (hp : '.' ∉ p) :
    ((p ++ '.' :: []).isPrefixOf (render4 a.val b.val c.val d.val) = true) ↔
      decOctet a.val = p := by
  unfold render4
  rw [sep_cons_isPrefixOf '.' _ _ _ _ hp (decOctet_facts a).1]
  simp only [List.isPrefixOf, and_true]
  exact ⟨Eq.symm, Eq.symm⟩

theorem render4_eq_127 (a b c d : Fin 256) :
    (render4 a.val b.val c.val d.val = "127.0.0.1".data) ↔
      (a.val = 127 ∧ b.val = 0 ∧ c.val = 0 ∧ d.val = 1) := by
  have hlit : ("127.0.0.1".data : List Char) =
      "127".data ++ '.' :: ("0".data ++ '.' :: ("0".data ++ '.' :: "1".data)) := rfl
  unfold render4
  rw [hlit,
      sep_cons_eq '.' _ _ _ _ (decOctet_facts a).1 (by decide),
      sep_cons_eq '.' _ _ _ _ (decOctet_facts b).1 (by decide),
      sep_cons_eq '.' _ _ _ _ (decOctet_facts c).1 (by decide),
      (decOctet_eq_const a).2.2.2.2.2.2.1, (decOctet_eq_const b).2.2.2.2.2.2.2.1,
      (decOctet_eq_const c).2.2.2.2.2.2.2.1, (decOctet_eq_const d).2.2.2.2.2.2.2.2]

theorem render4_strStarts_pair (a b c d : Fin 256) (s : String) (p q : List Char)
    (hs : s.data = p ++ '.' :: (q ++ '.' :: [])) (hp : '.' ∉ p) (hq : '.' ∉ q) :
    strStarts (String.mk (render4 a.val b.val c.val d.val)) s = true ↔
      (decOctet a.val = p ∧ decOctet b.val = q) := by
  unfold strStarts
  rw [hs]
  simp only [String.data]
  exact render4_pair_prefix a b c d p q hp hq

theorem render4_strStarts_single (a b c d : Fin 256) (s : String) (p : List Char)
    (hs : s.data = p ++ '.' :: []) (hp : '.' ∉ p) :
    strStarts (String.mk (render4 a.val b.val c.val d.val)) s = true ↔
      decOctet a.val = p := by
  unfold strStarts
  rw [hs]
  simp only [String.data]
  exact render4_single_prefix a b c d p hp

theorem is172Range_render4 (a b c d : Fin 256) :
    is172Range (String.mk (render4 a.val b.val c.val d.val)) = true ↔
      (a.val = 172 ∧ 16 ≤ b.val ∧ b.val ≤ 31) := by
  unfold is172Range prefixes172
  simp only [List.any_cons, List.any_nil, Bool.or_eq_true, Bool.or_false]
  rw [render4_strStarts_pair a b c d "172.16." "172".data "16".data rfl (by decide) (by decide),
      render4_strStarts_pair a b c d "172.17." "172".data "17".data rfl (by decide) (by decide),
      render4_strStarts_pair a b c d "172.18." "172".data "18".data rfl (by decide) (by decide),
      render4_strStarts_pair a b c d "172.19." "172".data "19".data rfl (by decide) (by decide),
      render4_strStarts_pair a b c d "172.20." "172".data "20".data rfl (by decide) (by decide),
      render4_strStarts_pair a b c d "172.21." "172".data "21".data rfl (by decide) (by decide),
      render4_strStarts_pair a b c d "172.22." "172".data "22".data rfl (by decide) (by decide),
      render4_strStarts_pair a b c d "172.23." "172".data "23".data rfl (by decide) (by decide),
      render4_strStarts_pair a b c d "172.24." "172".data "24".data rfl (by decide) (by decide),
      render4_strStarts_pair a b c d "172.25." "172".data "25".data rfl (by decide) (by decide),
      render4_strStarts_pair a b c d "172.26." "172".data "26".data rfl (by decide) (by decide),
      render4_strStarts_pair a b c d "172.27." "172".data "27".data rfl (by decide) (by decide),
      render4_strStarts_pair a b c d "172.28." "172".data "28".data rfl (by decide) (by decide),
      render4_strStarts_pair a b c d "172.29." "172".data "29".data rfl (by decide) (by decide),
      render4_strStarts_pair a b c d "172.30." "172".data "30".data rfl (by decide) (by decide),
      render4_strStarts_pair a b c d "172.31." "172".data "31".data rfl (by decide) (by decide),
      (decOctet_eq_const a).2.2.2.2.2.1,
      (decOctet_eq_teens b).1, (decOctet_eq_teens b).2.1, (decOctet_eq_teens b).2.2.1,
      (decOctet_eq_teens b).2.2.2.1, (decOctet_eq_teens b).2.2.2.2.1,
      (decOctet_eq_teens b).2.2.2.2.2.1, (decOctet_eq_teens b).2.2.2.2.2.2.1,
      (decOctet_eq_teens b).2.2.2.2.2.2.2.1, (decOctet_eq_teens b).2.2.2.2.2.2.2.2.1,
      (decOctet_eq_teens b).2.2.2.2.2.2.2.2.2.1, (decOctet_eq_teens b).2.2.2.2.2.2.2.2.2.2.1,
      (decOctet_eq_teens b).2.2.2.2.2.2.2.2.2.2.2.1,
      (decOctet_eq_teens b).2.2.2.2.2.2.2.2.2.2.2.2.1,
      (decOctet_eq_teens b).2.2.2.2.2.2.2.2.2.2.2.2.2.1,
      (decOctet_eq_teens b).2.2.2.2.2.2.2.2.2.2.2.2.2.2.1,
      (decOctet_eq_teens b).2.2.2.2.2.2.2.2.2.2.2.2.2.2.2]
  omega

theorem isPrivateIp_render4_iff (a b c d : Fin 256) :
    isPrivateIp (String.mk (render4 a.val b.val c.val d.val)) = true ↔
      (a.val = 10 ∨ (a.val = 172 ∧ 16 ≤ b.val ∧ b.val ≤ 31) ∨ (a.val = 192 ∧ b.val = 168) ∨
       (a.val = 127 ∧ b.val = 0 ∧ c.val = 0 ∧ d.val = 1) ∨ (a.val = 169 ∧ b.val = 254)) := by
  have hcolon := render4_no_colon a b c d
  unfold isPrivateIp
  simp only [Bool.or_eq_true]
  rw [render4_strStarts_single a b c d "10." "10".data rfl (by decide),
      render4_strStarts_pair a b c d "192.168." "192".data "168".data rfl (by decide) (by decide),
      render4_strStarts_pair a b c d "169.254." "169".data "254".data rfl (by decide) (by decide),
      is172Range_render4 a b c d]
  simp only [strStarts, String.data, beq_iff_eq]
  have hne1 : (render4 a.val b.val c.val d.val = "::1".data) ↔ False := by
    simp only [iff_false]
    intro h
    exact hcolon (h ▸ (by decide : ':' ∈ ("::1".data : List Char)))
  have hne2 : ("fe80:".data.isPrefixOf (render4 a.val b.val c.val d.val) = true) ↔ False := by
    simp only [iff_false]
    intro h
    exact hcolon ((List.isPrefixOf_iff_prefix.mp h).subset (by decide))
  rw [render4_eq_127 a b c d,
      (decOctet_eq_const a).1, (decOctet_eq_const a).2.1, (decOctet_eq_const b).2.2.1,
      (decOctet_eq_const a).2.2.2.1, (decOctet_eq_const b).2.2.2.2.1, hne1, hne2]
  simp only [or_false, false_or]
  tauto

theorem render6_colon_mem (a b : Nat) (t : List Nat) : ':' ∈ render6 (a :: b :: t) := by
  unfold render6
  cases hbr : bestRun (a :: b :: t) with
  | none =>
    simp only [List.map_cons]
    exact ic_colon_mem _ _ _
  | some sl =>
    obtain ⟨s, l⟩ := sl
    simp

theorem netIsIP_render6 (g0 g1 g2 g3 g4 g5 g6 g7 : Fin 65536) :
    netIsIP (String.mk (render6 [g0.val, g1.val, g2.val, g3.val,
      g4.val, g5.val, g6.val, g7.val])) = true := by
  have hall : ∀ g ∈ [g0.val, g1.val, g2.val, g3.val, g4.val, g5.val, g6.val, g7.val],
      g < 65536 := by
    intro g hg
    simp only [List.mem_cons, List.not_mem_nil, or_false] at hg
    rcases hg with rfl | rfl | rfl | rfl | rfl | rfl | rfl | rfl <;> exact Fin.isLt _
  unfold netIsIP
  simp only [String.data]
  have h6 : isIPv6Str (render6 [g0.val, g1.val, g2.val, g3.val,
      g4.val, g5.val, g6.val, g7.val]) = true := by
    unfold isIPv6Str
    have hcol : ':' ∈ render6 [g0.val, g1.val, g2.val, g3.val, g4.val, g5.val, g6.val, g7.val] :=
      render6_colon_mem _ _ _
    have hcont : (render6 [g0.val, g1.val, g2.val, g3.val,
        g4.val, g5.val, g6.val, g7.val]).contains ':' = true := by
      simpa [List.contains] using hcol
    rw [hcont]
    simp only [Bool.true_and]
    rw [List.all_eq_true]
    intro ch hch
    rcases render6_chars _ hall ch hch with h | h
    · simp [h]
    · simp [h]
  rw [h6, Bool.or_true]

theorem isPrivateIp_render6_iff (g0 g1 g2 g3 g4 g5 g6 g7 : Fin 65536) :
    isPrivateIp (String.mk (render6 [g0.val, g1.val, g2.val, g3.val,
      g4.val, g5.val, g6.val, g7.val])) = true ↔
      ((g0.val = 0 ∧ g1.val = 0 ∧ g2.val = 0 ∧ g3.val = 0 ∧
        g4.val = 0 ∧ g5.val = 0 ∧ g6.val = 0 ∧ g7.val = 1) ∨ g0.val = 65152) := by
  have hall : ∀ g ∈ [g0.val, g1.val, g2.val, g3.val, g4.val, g5.val, g6.val, g7.val],
      g < 65536 := by
    intro g hg
    simp only [List.mem_cons, List.not_mem_nil, or_false] at hg
    rcases hg with rfl | rfl | rfl | rfl | rfl | rfl | rfl | rfl <;> exact Fin.isLt _
  have hnodot := render6_no_dot _ hall
  unfold isPrivateIp
  simp only [Bool.or_eq_true, strStarts, String.data]
  have h10 := isPrefixOf_false_of_mem "10.".data _ '.' (by decide) hnodot
  have h192 := isPrefixOf_false_of_mem "192.168.".data _ '.' (by decide) hnodot
  have h169 := isPrefixOf_false_of_mem "169.254.".data _ '.' (by decide) hnodot
  have h127 := beq_false_of_mem "127.0.0.1".data _ '.' (by decide) hnodot
  have h172 : is172Range (String.mk (render6 [g0.val, g1.val, g2.val, g3.val,
      g4.val, g5.val, g6.val, g7.val])) = false := by
    unfold is172Range
    rw [List.any_eq_false]
    intro p hp
    have hdots : ∀ p ∈ prefixes172, '.' ∈ p.data := by decide
    have hfalse := isPrefixOf_false_of_mem p.data _ '.' (hdots p hp) hnodot
    unfold strStarts
    simp only [String.data]
    simp [hfalse]
  rw [h10, h192, h169, h127, h172]
  simp only [beq_iff_eq, Bool.false_eq_true, false_or, or_false]
  rw [render6_eq_loopback _ _ _ _ _ _ _ _ hall,
      render6_fe80_prefix _ _ (by simp) hall]

theorem code_private_iff (x : IpAddr) :
    ((netIsIP (renderIp x) && isPrivateIp (renderIp x)) = true) ↔
      amendedDenylisted x = true := by
  cases x with
  | v4 a b c d =>
    simp only [renderIp, Bool.and_eq_true, netIsIP_render4, true_and]
    rw [isPrivateIp_render4_iff]
    unfold amendedDenylisted
    simp only [Bool.or_eq_true, Bool.and_eq_true, decide_eq_true_eq, beq_iff_eq]
    omega
  | v6 g0 g1 g2 g3 g4 g5 g6 g7 =>
    simp only [renderIp, Bool.and_eq_true, netIsIP_render6, true_and]
    rw [isPrivateIp_render6_iff]
    unfold amendedDenylisted
    simp only [Bool.or_eq_true, Bool.and_eq_true, decide_eq_true_eq, beq_iff_eq]
    omega

theorem checkAddrs_error_iff (addrs : List String) :
    checkAddrs addrs = Except.error "private ip blocked" ↔
      ∃ a ∈ addrs, netIsIP a = true ∧ isPrivateIp a = true := by
  induction addrs with
  | nil => simp [checkAddrs]
  | cons ip rest ih =>
    unfold checkAddrs
    by_cases h1 : netIsIP ip = false
    · simp [h1, ih]
    · have h1' : netIsIP ip = true := by revert h1; cases netIsIP ip <;> simp
      by_cases h2 : isPrivateIp ip = true
      · simp [h1', h2]
      · have h2' : isPrivateIp ip = false := by revert h2; cases isPrivateIp ip <;> simp
        simp [h1', h2', ih]

theorem checkAddrs_dichotomy (addrs : List String) :
    checkAddrs addrs = Except.ok () ∨ checkAddrs addrs = Except.error "private ip blocked" := by
  induction addrs with
  | nil => exact Or.inl rfl
  | cons ip rest ih =>
    unfold checkAddrs
    split_ifs with h1 h2
    · exact ih
    · exact Or.inr rfl
    · exact ih

theorem C1_amended_core (addrs : List IpAddr) :
    (checkAddrs (addrs.map renderIp) = Except.error "private ip blocked" ↔
      ∃ x ∈ addrs, amendedDenylisted x = true) := by
  rw [checkAddrs_error_iff]
  constructor
  · rintro ⟨a, ha, hn, hp⟩
    obtain ⟨x, hx, rfl⟩ := List.mem_map.mp ha
    exact ⟨x, hx, (code_private_iff x).mp (by simp [hn, hp])⟩
  · rintro ⟨x, hx, hden⟩
    have h := (code_private_iff x).mpr hden
    simp only [Bool.and_eq_true] at h
    exact ⟨renderIp x, List.mem_map_of_mem _ hx, h.1, h.2⟩

/-- C1 (counterexample): the address `fe82::1` lies in fe80::/10 (its top
ten bits are 0b1111111010), so the claim as stated requires
`validateResolvablePublic` to fail on a resolution yielding it; the code's
textual probe `startsWith("fe80:")` does not match `fe82::1`, and the check
succeeds. -/
theorem C1_counterexample :
    specDenylisted (IpAddr.v6 65154 0 0 0 0 0 0 1) = true ∧
    renderIp (IpAddr.v6 65154 0 0 0 0 0 0 1) = "fe82::1" ∧
    validateResolvablePublic true
      (Except.ok (([IpAddr.v6 65154 0 0 0 0 0 0 1]).map renderIp)) = Except.ok () :=
  ⟨by decide, rfl, rfl⟩

/-- C1 (amended): with the deny-private-IPs flag enabled, for every host
whose DNS resolution yields at least one address in the denylisted ranges —
IPv4 10.0.0.0/8, 172.16.0.0/12, 192.168.0.0/16, 127.0.0.1, 169.254.0.0/16,
or IPv6 `::1` or any fe80::/16 address (first group 0xfe80, i.e. canonical
text beginning `fe80:`) — `validateResolvablePublic` fails with the
`private ip blocked` error, regardless of how many other public addresses
were also resolved; and for every address set containing no denylisted
address it succeeds. -/
theorem C1_amended (addrs : List IpAddr) :
    (validateResolvablePublic true (Except.ok (addrs.map renderIp)) =
        Except.error "private ip blocked" ↔ ∃ x ∈ addrs, amendedDenylisted x = true) ∧
    (validateResolvablePublic true (Except.ok (addrs.map renderIp)) = Except.ok () ↔
        ∀ x ∈ addrs, amendedDenylisted x = false) := by
  have hval : validateResolvablePublic true (Except.ok (addrs.map renderIp)) =
      checkAddrs (addrs.map renderIp) := rfl
  refine ⟨by rw [hval]; exact C1_amended_core addrs, ?_⟩
  rw [hval]
  constructor
  · intro hok x hx
    cases hden : amendedDenylisted x with
    | false => rfl
    | true =>
      have herr := (C1_amended_core addrs).mpr ⟨x, hx, hden⟩
      rw [hok] at herr
      exact Except.noConfusion herr
  · intro hall
    rcases checkAddrs_dichotomy (addrs.map renderIp) with h | h
    · exact h
    · obtain ⟨x, hx, hden⟩ := (C1_amended_core addrs).mp h
      rw [hall x hx] at hden
      exact Bool.noConfusion hden

end Prerender
